/-
  Verification of the sensorbox-sdk synchronization core
  (src/sensorbox/sync: alignment.py, timestamp.py, synced_fusion.py)
  against its natural-language specification.

  Shallow embedding conventions:
  * Python float timestamps are modelled as rationals; every claim in
    scope is about ordering and exact arithmetic, not about rounding.
  * A deque with maxlen m is a List kept to its last m elements
    (front of the list = left end of the deque = oldest frame).
  * A queue.Queue is a List with head = oldest queued item; get_nowait
    removes the head, put_nowait appends at the back.
  * Python dicts are association lists with insertion-order semantics:
    setting an existing key updates it in place, a new key appends.
  * Mutable objects become explicit state records; methods become functions
    from state (plus the values the real code reads from the clock or the
    hardware) to state.  Reads that the real code performs on hardware are
    parameters (for example camRead : Nat -> Option SensorFrame).
  * Blocking forever on a lock is modelled by Option: lockAcquire on a
    lock already held by the (only) thread is none, since threading.Lock
    is not reentrant.
-/
import Mathlib

namespace Sensorbox

/-- One sensor reading (src/sensorbox/core/frame.py, SensorFrame), reduced to
the fields the synchronization core inspects: payload and metadata are opaque
to alignment, so they are collapsed into the sensor_id and seq identity. -/
structure SensorFrame where
  sensor_id : String
  timestamp : ℚ
  seq : Nat
deriving DecidableEq, Repr

/-- One composite depth-camera reading (src/sensorbox/drivers/oakd.py,
OakDFrame), likewise reduced to identity fields. -/
structure OakDFrame where
  timestamp : ℚ
  seq : Nat
deriving DecidableEq, Repr

/-- Python dict lookup over an insertion-ordered association list. -/
def dictGet {κ α : Type} [DecidableEq κ] : List (κ × α) → κ → Option α
  | [], _ => none
  | (k2, v) :: rest, k => if k2 = k then some v else dictGet rest k

/-- Python dict assignment over an insertion-ordered association list: an
existing key is updated in place, a fresh key is appended at the back. -/
def dictSet {κ α : Type} [DecidableEq κ] : List (κ × α) → κ → α → List (κ × α)
  | [], k, v => [(k, v)]
  | (k2, v2) :: rest, k, v =>
      if k2 = k then (k2, v) :: rest else (k2, v2) :: dictSet rest k v

/-- Acquisition of a non-reentrant threading.Lock by the only running
thread: if the thread already holds it, the acquisition blocks forever,
modelled as none. -/
def lockAcquire (held : Bool) : Option Bool :=
  if held then none else some true

/-- Nonblocking removal of the head of a queue.Queue: get_nowait returns the
oldest queued item, or none (queue.Empty caught) when the queue is empty. -/
def getNowait {α : Type} : List α → Option α × List α
  | [] => (none, [])
  | x :: rest => (some x, rest)

namespace FrameBuffer

/-- Appending on deque(maxlen=max_size) (alignment.py line 72): append at
the right; the deque evicts from the left when over capacity. -/
def dequeAppend (maxSize : Nat) (buf : List SensorFrame) (f : SensorFrame) :
    List SensorFrame :=
  (buf ++ [f]).drop ((buf.length + 1) - maxSize)

/-- Method FrameBuffer._cleanup_old_frames (alignment.py lines 75-84): compute
cutoff = buffer[-1].timestamp - max_age once, then pop from the left while
the leftmost frame has timestamp strictly below the cutoff. -/
def cleanupOldFrames (maxAge : ℚ) (buf : List SensorFrame) : List SensorFrame :=
  match buf.getLast? with
  | none => buf
  | some newest =>
      buf.dropWhile (fun f => decide (f.timestamp < newest.timestamp - maxAge))

/-- Method FrameBuffer.add (alignment.py lines 69-73): append, then
age-prune. -/
def add (maxSize : Nat) (maxAge : ℚ) (buf : List SensorFrame)
    (f : SensorFrame) : List SensorFrame :=
  cleanupOldFrames maxAge (dequeAppend maxSize buf f)

/-- The buffer produced by a sequence of add calls starting from empty. -/
def addList (maxSize : Nat) (maxAge : ℚ) (fs : List SensorFrame) :
    List SensorFrame :=
  fs.foldl (add maxSize maxAge) []

/-- Loop body of FrameBuffer.find_nearest (alignment.py lines 100-104):
running best frame and best absolute delta; the initial best delta of
float infinity is the none accumulator, since any real delta beats it.
Strict less-than keeps the earlier frame on a tie. -/
def fnStep (target : ℚ) (acc : Option (SensorFrame × ℚ)) (f : SensorFrame) :
    Option (SensorFrame × ℚ) :=
  let delta := |f.timestamp - target|
  match acc with
  | none => some (f, delta)
  | some (bf, bd) => if delta < bd then some (f, delta) else some (bf, bd)

/-- Method FrameBuffer.find_nearest (alignment.py lines 86-106): none on an
empty buffer, otherwise the scan-order-first frame of minimal absolute
timestamp distance, paired with the signed delta target - frame.timestamp. -/
def findNearest (buf : List SensorFrame) (target : ℚ) :
    Option (SensorFrame × ℚ) :=
  match buf.foldl (fnStep target) none with
  | none => none
  | some (bf, _) => some (bf, target - bf.timestamp)

/-- Method FrameBuffer.get_latest (alignment.py lines 108-111): the
rightmost element buffer[-1], or none when empty. -/
def getLatest (buf : List SensorFrame) : Option SensorFrame :=
  buf.getLast?

end FrameBuffer

/-- Output of alignment (alignment.py, AlignedFrame), with wall_time carried
as a rational clock value. -/
structure AlignedFrame where
  timestamp : ℚ
  wall_time : ℚ
  frames : List (String × SensorFrame)
  alignment_errors : List (String × ℚ)
deriving DecidableEq, Repr

/-- State of a FrameAligner (alignment.py lines 146-169): configuration,
per-sensor buffers (a dict of FrameBuffer contents), and counters. -/
structure FrameAligner where
  primary_sensor : String
  tolerance : ℚ
  buffer_size : Nat
  buffers : List (String × List SensorFrame)
  total_alignments : Nat
  successful_alignments : Nat
deriving DecidableEq, Repr

namespace FrameAligner

/-- Loop body of FrameAligner.align_to_timestamp (alignment.py lines
204-213): skip unknown sensors, query find_nearest, and record the frame
and its signed delta only when the absolute delta is within tolerance. -/
def alignStep (buffers : List (String × List SensorFrame)) (tol : ℚ)
    (target : ℚ)
    (acc : List (String × SensorFrame) × List (String × ℚ)) (sid : String) :
    List (String × SensorFrame) × List (String × ℚ) :=
  match dictGet buffers sid with
  | none => acc
  | some buf =>
    match FrameBuffer.findNearest buf target with
    | none => acc
    | some (f, delta) =>
        if |delta| ≤ tol then (dictSet acc.1 sid f, dictSet acc.2 sid delta)
        else acc

/-- Method FrameAligner.align_to_timestamp (alignment.py lines 183-224),
body under the aligner lock.  The requested sensor list follows Python
truthiness: a none or empty sensor_ids argument falls back to all known
buffer keys. -/
def alignToTimestamp (st : FrameAligner) (wall : ℚ) (target : ℚ)
    (sensor_ids : Option (List String)) : AlignedFrame × FrameAligner :=
  let sensors :=
    match sensor_ids with
    | none => st.buffers.map Prod.fst
    | some l => if l = [] then st.buffers.map Prod.fst else l
  let fe := sensors.foldl (alignStep st.buffers st.tolerance target) ([], [])
  ({ timestamp := target, wall_time := wall,
     frames := fe.1, alignment_errors := fe.2 },
   { st with
     total_alignments := st.total_alignments + 1,
     successful_alignments :=
       if fe.1 = [] then st.successful_alignments
       else st.successful_alignments + 1 })

/-- Method FrameAligner.align_to_primary (alignment.py lines 226-241).  The
outer statement acquires the free aligner lock and holds it; the early
exits return without a nested acquisition, but the final path calls
self.align_to_timestamp, whose own acquisition of the same non-reentrant
lock is lockAcquire true.  The outer Option is none exactly when the call
blocks forever instead of returning. -/
def alignToPrimary (st : FrameAligner) (wall : ℚ) :
    Option (Option AlignedFrame × FrameAligner) :=
  match dictGet st.buffers st.primary_sensor with
  | none => some (none, st)
  | some buf =>
    match FrameBuffer.getLatest buf with
    | none => some (none, st)
    | some pf =>
      match lockAcquire true with
      | none => none
      | some _ =>
          let r := alignToTimestamp st wall pf.timestamp none
          some (some r.1, r.2)

end FrameAligner

/-- State of a TimestampManager (timestamp.py lines 24-30); per-type stats
are count, first_ts and last_ts. -/
structure TimestampManager where
  start_time_mono : Option ℚ
  start_time_wall : Option ℚ
  running : Bool
  sensor_stats : List (String × (Nat × ℚ × ℚ))
deriving DecidableEq, Repr

namespace TimestampManager

/-- Method TimestampManager.start (timestamp.py lines 42-49): a no-op while
already running, otherwise it anchors both clocks, sets running, and
clears the stats. -/
def start (now wall : ℚ) (tm : TimestampManager) : TimestampManager :=
  if tm.running then tm
  else
    { start_time_mono := some now, start_time_wall := some wall,
      running := true, sensor_stats := [] }

/-- Property TimestampManager.elapsed_time (timestamp.py lines 36-40):
zero before ever starting, otherwise now minus the monotonic anchor. -/
def elapsedTime (now : ℚ) (tm : TimestampManager) : ℚ :=
  match tm.start_time_mono with
  | none => 0
  | some anchor => now - anchor

end TimestampManager

/-- Output unit of the fusion driver (synced_fusion.py, SyncedFrame). -/
structure SyncedFrame where
  timestamp : ℚ
  wall_time : ℚ
  cameras : List (Nat × SensorFrame)
  lidar : Option SensorFrame
  oakd : Option OakDFrame
deriving DecidableEq, Repr

/-- State of a SyncedSensorFusion driver (synced_fusion.py lines 40-73).
Driver handles are reduced to their presence and connected flag: cameras is
the dict self._cameras with each value the connected state of that camera
driver; lidar and oakd are none when the corresponding attribute is None.
Thread handles are presence flags.  The two queues hold their queued
frames, head = oldest. -/
structure FusionState where
  camera_ids : List Nat
  lidar_port : Option String
  oakd_enabled : Bool
  cameras : List (Nat × Bool)
  lidar : Option Bool
  oakd : Option Bool
  lidarQueue : List SensorFrame
  oakdQueue : List OakDFrame
  lidar_thread : Bool
  oakd_thread : Bool
  connected : Bool
  start_time : Option ℚ
deriving DecidableEq, Repr

namespace SyncedSensorFusion

/-- Camera loop of connect (synced_fusion.py lines 83-91): construct and
connect each configured camera in order; a successful camera is stored in
the dict; a raising CSICamera.connect propagates immediately, leaving the
cameras connected so far registered.  camOk says whether a given camera id
connects without raising. -/
def connectCams (camOk : Nat → Bool) :
    List Nat → FusionState → FusionState × Option String
  | [], st => (st, none)
  | cid :: rest, st =>
      if camOk cid then
        connectCams camOk rest { st with cameras := dictSet st.cameras cid true }
      else (st, some "ConnectionError")

/-- Method SyncedSensorFusion.connect (synced_fusion.py lines 75-111):
no-op when connected; anchor the start time; connect cameras in order; then
the lidar when a nonempty port is configured (the driver object is assigned
before its connect call, so a raising connect leaves the handle set but not
connected); then the oakd likewise; each worker thread starts only after
its driver connected; the connected flag is set only at the very end.  The
second component is the propagated exception, if any. -/
def connect (camOk : Nat → Bool) (lidarOk oakdOk : Bool) (now : ℚ)
    (st : FusionState) : FusionState × Option String :=
  if st.connected then (st, none)
  else
    let st0 := { st with start_time := some now }
    match connectCams camOk st0.camera_ids st0 with
    | (st1, some e) => (st1, some e)
    | (st1, none) =>
      let step2 : FusionState × Option String :=
        match st1.lidar_port with
        | none => (st1, none)
        | some p =>
          if p = "" then (st1, none)
          else
            let st2 := { st1 with lidar := some lidarOk }
            if lidarOk then ({ st2 with lidar_thread := true }, none)
            else (st2, some "ConnectionError")
      match step2 with
      | (st2, some e) => (st2, some e)
      | (st2, none) =>
          if st2.oakd_enabled then
            let st3 := { st2 with oakd := some oakdOk }
            if oakdOk then
              ({ st3 with oakd_thread := true, connected := true }, none)
            else (st3, some "ConnectionError")
          else ({ st2 with connected := true }, none)

/-- Method SyncedSensorFusion.disconnect (synced_fusion.py lines 113-133):
signal and join the workers, disconnect and clear the cameras, disconnect
and drop the lidar and oakd handles, and clear the connected flag.  The
source never touches self._lidar_queue or self._oakd_queue here, so the
queue fields are carried over unchanged. -/
def disconnect (st : FusionState) : FusionState :=
  { st with cameras := [], lidar := none, oakd := none, connected := false }

/-- Method SyncedSensorFusion._get_lidar (synced_fusion.py lines 172-176):
one single get_nowait on the lidar queue. -/
def getLidar (st : FusionState) : Option SensorFrame × FusionState :=
  let r := getNowait st.lidarQueue
  (r.1, { st with lidarQueue := r.2 })

/-- Method SyncedSensorFusion._get_oakd (synced_fusion.py lines 178-182):
one single get_nowait on the oakd queue. -/
def getOakd (st : FusionState) : Option OakDFrame × FusionState :=
  let r := getNowait st.oakdQueue
  (r.1, { st with oakdQueue := r.2 })

/-- Method SyncedSensorFusion.read (synced_fusion.py lines 184-200): raise
when not connected; otherwise compute the driver-relative timestamp, read
every registered camera synchronously in dict order keeping the ids that
produced a frame, take one item from each async queue, and assemble the
SyncedFrame.  camRead gives the frame each camera driver returns this
tick. -/
def read (camRead : Nat → Option SensorFrame) (now wall : ℚ)
    (st : FusionState) : Except String (SyncedFrame × FusionState) :=
  if st.connected = false then .error "Not connected"
  else
    let ts := now - st.start_time.getD 0
    let cams := st.cameras.foldl
      (fun acc p =>
        match camRead p.1 with
        | some f => dictSet acc p.1 f
        | none => acc) []
    let lres := getLidar st
    let ores := getOakd lres.2
    .ok ({ timestamp := ts, wall_time := wall, cameras := cams,
           lidar := lres.1, oakd := ores.1 }, ores.2)

/-- Termination test of the stream loop (synced_fusion.py lines 216-220):
the two leading break checks of the while loop, with Python truthiness on
the bounds: a None or zero duration never triggers the first break, a None
or zero max_frames never triggers the second. -/
def streamShouldStop (duration : Option ℚ) (max_frames : Option Nat)
    (elapsed : ℚ) (count : Nat) : Bool :=
  (match duration with
   | none => false
   | some d => if d = 0 then false else decide (elapsed ≥ d)) ||
  (match max_frames with
   | none => false
   | some m => if m = 0 then false else decide (count ≥ m))

end SyncedSensorFusion

/-- Fixture frame at a given timestamp for concrete witnesses. -/
def wf (t : ℚ) (n : Nat) : SensorFrame :=
  { sensor_id := "s", timestamp := t, seq := n }

/-- Fixture oakd frame for concrete witnesses. -/
def wo (t : ℚ) (n : Nat) : OakDFrame := { timestamp := t, seq := n }

/-- Fixture fusion state with nothing configured and nothing queued. -/
def emptyFusion : FusionState :=
  { camera_ids := [], lidar_port := none, oakd_enabled := false,
    cameras := [], lidar := none, oakd := none,
    lidarQueue := [], oakdQueue := [],
    lidar_thread := false, oakd_thread := false,
    connected := false, start_time := none }

/-- Fixture connected fusion state with two lidar scans queued (the scan at
timestamp 1 is older, the scan at timestamp 2 newer) and one oakd frame. -/
def fusionTwoQueued : FusionState :=
  { emptyFusion with
    connected := true
    start_time := some 0
    lidarQueue := [wf 1 0, wf 2 1]
    oakdQueue := [wo 3 0, wo 4 1] }

/-- Fixture disconnected fusion state configured with cameras 0 and 1. -/
def fusionTwoCams : FusionState :=
  { emptyFusion with camera_ids := [0, 1] }

/-- Fixture connected fusion state with one stale lidar scan queued. -/
def fusionStaleQueue : FusionState :=
  { emptyFusion with
    connected := true
    start_time := some 0
    lidarQueue := [wf 5 0] }

/-- Fixture aligner owning one buffer for sensor cam holding one frame at
timestamp 10, with the default 50 ms tolerance. -/
def alignerOneCam : FrameAligner :=
  { primary_sensor := "cam", tolerance := 1/20, buffer_size := 100,
    buffers := [("cam", [wf 10 0])],
    total_alignments := 0, successful_alignments := 0 }

/- ------------------------------------------------------------------ -/
/- Shared helper lemmas                                               -/
/- ------------------------------------------------------------------ -/

theorem getLast_mem_of_eq {α : Type} {l : List α} {a : α}
    (h : l.getLast? = some a) : a ∈ l := by
  obtain ⟨ys, rfl⟩ := List.getLast?_eq_some_iff.mp h
  simp

theorem getLast_of_suffix {α : Type} {l1 l2 : List α}
    (h : l1 <:+ l2) (hne : l1 ≠ []) : l2.getLast? = l1.getLast? := by
  obtain ⟨w, rfl⟩ := h
  rw [List.getLast?_append]
  have : l1.getLast?.isSome = true := List.getLast?_isSome.mpr hne
  cases hl : l1.getLast? with
  | none => rw [hl] at this; simp at this
  | some a => simp [Option.or]

namespace FrameBuffer

theorem cleanup_suffix (A : ℚ) (l : List SensorFrame) :
    cleanupOldFrames A l <:+ l := by
  unfold cleanupOldFrames
  cases h : l.getLast? with
  | none => exact List.suffix_refl l
  | some nw => exact List.dropWhile_suffix _

theorem add_suffix (C : Nat) (A : ℚ) (buf : List SensorFrame)
    (f : SensorFrame) : add C A buf f <:+ buf ++ [f] := by
  unfold add
  exact (cleanup_suffix A _).trans (List.drop_suffix _ _)

theorem add_length_le (C : Nat) (A : ℚ) (buf : List SensorFrame)
    (f : SensorFrame) : (add C A buf f).length ≤ C := by
  have h1 : (add C A buf f).length ≤ (dequeAppend C buf f).length :=
    ((cleanup_suffix A _).sublist).length_le
  have h2 : (dequeAppend C buf f).length = (buf.length + 1) - ((buf.length + 1) - C) := by
    unfold dequeAppend
    rw [List.length_drop]
    simp
  omega

theorem addList_suffix (C : Nat) (A : ℚ) (fs : List SensorFrame) :
    addList C A fs <:+ fs := by
  induction fs using List.reverseRecOn with
  | nil => exact List.suffix_refl []
  | append_singleton l a ih =>
      have h1 : addList C A (l ++ [a]) = add C A (addList C A l) a := by
        unfold addList
        rw [List.foldl_append]
        rfl
      rw [h1]
      refine (add_suffix C A _ a).trans ?_
      obtain ⟨w, hw⟩ := ih
      exact ⟨w, by rw [← List.append_assoc, hw]⟩

theorem cleanup_age {A : ℚ} {buf : List SensorFrame} {e nw : SensorFrame}
    (hs : buf.Pairwise (fun a b => a.timestamp ≤ b.timestamp))
    (hl : buf.getLast? = some nw)
    (he : e ∈ cleanupOldFrames A buf) :
    nw.timestamp - e.timestamp ≤ A := by
  simp only [cleanupOldFrames, hl] at he
  set p : SensorFrame → Bool :=
    fun f => decide (f.timestamp < nw.timestamp - A) with hp
  have hw : List.dropWhile p buf ≠ [] := List.ne_nil_of_mem he
  have hhead := List.head_dropWhile_not p buf hw
  obtain ⟨h0, t0, hcons⟩ := List.exists_cons_of_ne_nil hw
  have hh : (List.dropWhile p buf).head hw = h0 := by
    have h1 : (List.dropWhile p buf).head? = some h0 := by rw [hcons]; rfl
    have h2 : (List.dropWhile p buf).head? =
        some ((List.dropWhile p buf).head hw) := List.head?_eq_head hw
    rw [h1] at h2
    exact (Option.some.inj h2).symm
  have hh0 : ¬ (h0.timestamp < nw.timestamp - A) := by
    rw [hh] at hhead
    simpa [hp] using hhead
  have hsorted : (List.dropWhile p buf).Pairwise
      (fun a b => a.timestamp ≤ b.timestamp) :=
    List.Pairwise.sublist (List.dropWhile_sublist p) hs
  rw [hcons] at he hsorted
  rcases List.mem_cons.mp he with he2 | he2
  · subst he2
    linarith [not_lt.mp hh0]
  · have := List.rel_of_pairwise_cons hsorted he2
    linarith [not_lt.mp hh0]

end FrameBuffer

/- ------------------------------------------------------------------ -/
/- Claims C4 and C6: FrameBuffer capacity and age pruning             -/
/- ------------------------------------------------------------------ -/

/-- C4, counterexample to the claim as stated: the claim quantifies over
all sequences of add calls, but when timestamps arrive out of order the
front-only pruning loop misses an old frame hidden behind a fresh head.
Adding frames at timestamps 10, 0, 21/2 into a buffer with max_size 3 and
max_age 1 leaves the frame at timestamp 0 in the buffer, whose age against
the most recently added frame is 21/2, far above max_age. -/
theorem buffer_age_counterexample :
    [wf 10 0, wf 0 1, wf (21/2) 2].getLast? = some (wf (21/2) 2) ∧
    wf 0 1 ∈ FrameBuffer.addList 3 1 [wf 10 0, wf 0 1, wf (21/2) 2] ∧
    ¬ ((wf (21/2) 2).timestamp - (wf 0 1).timestamp ≤ 1) := by
  refine ⟨by simp, ?_, by norm_num [wf]⟩
  norm_num [FrameBuffer.addList, FrameBuffer.add, FrameBuffer.dequeAppend,
    FrameBuffer.cleanupOldFrames, wf, List.dropWhile]

/-- C4 (amended): for every sequence of add calls whose frame timestamps are
nondecreasing, a FrameBuffer with max_size C and max_age A holds at most C
entries after every add, and every buffered entry e satisfies
newest.timestamp - e.timestamp <= A, where newest is the most recently
added frame.  (The capacity bound needs no ordering assumption; the age
bound does, as the counterexample shows.) -/
theorem buffer_capacity_and_age_sorted :
    ∀ (C : Nat) (A : ℚ) (fs : List SensorFrame),
    fs.Pairwise (fun a b => a.timestamp ≤ b.timestamp) →
    (FrameBuffer.addList C A fs).length ≤ C ∧
    ∀ e ∈ FrameBuffer.addList C A fs, ∀ nw, fs.getLast? = some nw →
      nw.timestamp - e.timestamp ≤ A := by
  intro C A fs hs
  constructor
  · induction fs using List.reverseRecOn with
    | nil => simp [FrameBuffer.addList]
    | append_singleton l a _ =>
        have h1 : FrameBuffer.addList C A (l ++ [a]) =
            FrameBuffer.add C A (FrameBuffer.addList C A l) a := by
          unfold FrameBuffer.addList
          rw [List.foldl_append]
          rfl
        rw [h1]
        exact FrameBuffer.add_length_le C A _ a
  · intro e he nw hnw
    obtain ⟨ys, rfl⟩ := List.getLast?_eq_some_iff.mp hnw
    have h1 : FrameBuffer.addList C A (ys ++ [nw]) =
        FrameBuffer.add C A (FrameBuffer.addList C A ys) nw := by
      unfold FrameBuffer.addList
      rw [List.foldl_append]
      rfl
    rw [h1] at he
    simp only [FrameBuffer.add] at he
    set buf := FrameBuffer.addList C A ys with hbuf
    set pre := FrameBuffer.dequeAppend C buf nw with hpre
    have hsuffix : pre <:+ buf ++ [nw] := by
      rw [hpre]
      unfold FrameBuffer.dequeAppend
      exact List.drop_suffix _ _
    have hsub : pre.Sublist (ys ++ [nw]) :=
      hsuffix.sublist.trans
        (((FrameBuffer.addList_suffix C A ys).sublist).append_right [nw])
    have hpresorted : pre.Pairwise (fun a b => a.timestamp ≤ b.timestamp) :=
      List.Pairwise.sublist hsub hs
    have hne : pre ≠ [] := by
      intro h
      rw [h] at he
      simp [FrameBuffer.cleanupOldFrames] at he
    have hlast : pre.getLast? = some nw := by
      have h2 := getLast_of_suffix hsuffix hne
      rw [List.getLast?_concat] at h2
      exact h2.symm
    exact FrameBuffer.cleanup_age hpresorted hlast he

/-- C4, witness: the amended theorem applied to the two-frame nondecreasing
sequence with timestamps 1 and 2, capacity 3 and max_age 1. -/
theorem buffer_capacity_and_age_sorted_witness :
    (FrameBuffer.addList 3 1 [wf 1 0, wf 2 1]).length ≤ 3 ∧
    ∀ e ∈ FrameBuffer.addList 3 1 [wf 1 0, wf 2 1], ∀ nw,
      [wf 1 0, wf 2 1].getLast? = some nw →
      nw.timestamp - e.timestamp ≤ 1 :=
  buffer_capacity_and_age_sorted 3 1 [wf 1 0, wf 2 1]
    (by norm_num [List.pairwise_cons, wf])

/-- C6, counterexample to the claim as stated: the pruning comparison is
strict (timestamp < cutoff), so an entry whose timestamp equals exactly
newest.timestamp - max_age DOES remain in the buffer.  With max_age 1 and
frames added at timestamps 1 then 2, the frame at timestamp 1 = 2 - 1
survives, while the claim says it does not remain. -/
theorem cleanup_boundary_counterexample :
    wf 1 0 ∈ FrameBuffer.addList 100 1 [wf 1 0, wf 2 1] ∧
    (FrameBuffer.addList 100 1 [wf 1 0, wf 2 1]).getLast? = some (wf 2 1) ∧
    (wf 1 0).timestamp = (wf 2 1).timestamp - 1 := by
  refine ⟨?_, ?_, by norm_num [wf]⟩ <;>
    norm_num [FrameBuffer.addList, FrameBuffer.add, FrameBuffer.dequeAppend,
      FrameBuffer.cleanupOldFrames, wf, List.dropWhile]

/-- C6 (amended): after any add, pruning uses a strict comparison against
cutoff = newest.timestamp - max_age, so every entry that survived capacity
eviction and whose age relative to the newest entry is at most max_age —
including an entry with timestamp exactly newest.timestamp - max_age —
remains in the buffer; and the concrete scenario holds as stated: with
max_age 1.0 and frames added in order at timestamps 0.0, 0.5, 2.0, the
buffer afterwards holds only the frame at 2.0. -/
theorem cleanup_keeps_boundary :
    (FrameBuffer.addList 100 1 [wf 0 0, wf (1/2) 1, wf 2 2] = [wf 2 2]) ∧
    ∀ (C : Nat) (A : ℚ) (buf : List SensorFrame) (f e nw : SensorFrame),
      e ∈ FrameBuffer.dequeAppend C buf f →
      (FrameBuffer.dequeAppend C buf f).getLast? = some nw →
      nw.timestamp - e.timestamp ≤ A →
      e ∈ FrameBuffer.add C A buf f := by
  constructor
  · norm_num [FrameBuffer.addList, FrameBuffer.add, FrameBuffer.dequeAppend,
      FrameBuffer.cleanupOldFrames, wf, List.dropWhile]
  · intro C A buf f e nw he hlast hage
    simp only [FrameBuffer.add, FrameBuffer.cleanupOldFrames, hlast]
    set p : SensorFrame → Bool :=
      fun x => decide (x.timestamp < nw.timestamp - A) with hp
    have hnp : p e = false := by
      simp only [hp, decide_eq_false_iff_not, not_lt]
      linarith
    rw [← List.takeWhile_append_dropWhile p (FrameBuffer.dequeAppend C buf f)]
      at he
    rcases List.mem_append.mp he with h | h
    · have := List.mem_takeWhile_imp h
      rw [hnp] at this
      exact absurd this (by simp)
    · exact h

/-- C6, witness: the amended theorem applied to the boundary input, showing
the frame at timestamp 1 surviving an add of a frame at timestamp 2 under
max_age 1. -/
theorem cleanup_keeps_boundary_witness :
    wf 1 0 ∈ FrameBuffer.add 100 1 [wf 1 0] (wf 2 1) :=
  cleanup_keeps_boundary.2 100 1 [wf 1 0] (wf 2 1) (wf 1 0) (wf 2 1)
    (by simp [FrameBuffer.dequeAppend]) (by simp [FrameBuffer.dequeAppend])
    (by norm_num [wf])

/- ------------------------------------------------------------------ -/
/- Claim C5: find_nearest minimization                                -/
/- ------------------------------------------------------------------ -/

namespace FrameBuffer

theorem fnStep_fold_spec (t : ℚ) :
    ∀ (l : List SensorFrame) (bf : SensorFrame),
    ∃ g, l.foldl (fnStep t) (some (bf, |bf.timestamp - t|)) =
        some (g, |g.timestamp - t|) ∧
      ((g = bf ∧ ∀ e ∈ l, |bf.timestamp - t| ≤ |e.timestamp - t|) ∨
       (∃ pre post, l = pre ++ g :: post ∧
         |g.timestamp - t| < |bf.timestamp - t| ∧
         (∀ e ∈ pre, |g.timestamp - t| < |e.timestamp - t|) ∧
         (∀ e ∈ post, |g.timestamp - t| ≤ |e.timestamp - t|))) := by
  intro l
  induction l with
  | nil =>
      intro bf
      exact ⟨bf, rfl, Or.inl ⟨rfl, by simp⟩⟩
  | cons f rest ih =>
      intro bf
      by_cases hlt : |f.timestamp - t| < |bf.timestamp - t|
      · have hstep : fnStep t (some (bf, |bf.timestamp - t|)) f =
            some (f, |f.timestamp - t|) := by
          simp [fnStep, hlt]
        obtain ⟨g, hfold, hcase⟩ := ih f
        refine ⟨g, by rw [List.foldl_cons, hstep]; exact hfold, Or.inr ?_⟩
        rcases hcase with ⟨rfl, hmin⟩ | ⟨pre, post, hsplit, hg, hpre, hpost⟩
        · exact ⟨[], rest, by simp, hlt, by simp, hmin⟩
        · refine ⟨f :: pre, post, by simp [hsplit], lt_trans hg hlt, ?_, hpost⟩
          intro e he
          rcases List.mem_cons.mp he with rfl | he2
          · exact hg
          · exact hpre e he2
      · have hstep : fnStep t (some (bf, |bf.timestamp - t|)) f =
            some (bf, |bf.timestamp - t|) := by
          simp [fnStep, hlt]
        obtain ⟨g, hfold, hcase⟩ := ih bf
        refine ⟨g, by rw [List.foldl_cons, hstep]; exact hfold, ?_⟩
        rcases hcase with ⟨rfl, hmin⟩ | ⟨pre, post, hsplit, hg, hpre, hpost⟩
        · refine Or.inl ⟨rfl, ?_⟩
          intro e he
          rcases List.mem_cons.mp he with rfl | he2
          · exact not_lt.mp hlt
          · exact hmin e he2
        · refine Or.inr ⟨f :: pre, post, by simp [hsplit], hg, ?_, hpost⟩
          intro e he
          rcases List.mem_cons.mp he with rfl | he2
          · exact lt_of_lt_of_le hg (not_lt.mp hlt)
          · exact hpre e he2

theorem findNearest_spec_helper (buf : List SensorFrame) (t : ℚ)
    (h : buf ≠ []) :
    ∃ f pre post, findNearest buf t = some (f, t - f.timestamp) ∧
      buf = pre ++ f :: post ∧
      (∀ e ∈ buf, |f.timestamp - t| ≤ |e.timestamp - t|) ∧
      (∀ e ∈ pre, |f.timestamp - t| < |e.timestamp - t|) := by
  cases buf with
  | nil => exact absurd rfl h
  | cons x xs =>
      have hinit : fnStep t none x = some (x, |x.timestamp - t|) := rfl
      obtain ⟨g, hfold, hcase⟩ := fnStep_fold_spec t xs x
      have hfn : findNearest (x :: xs) t = some (g, t - g.timestamp) := by
        unfold findNearest
        rw [List.foldl_cons, hinit, hfold]
      rcases hcase with ⟨rfl, hmin⟩ | ⟨pre, post, hsplit, hg, hpre, hpost⟩
      · refine ⟨g, [], xs, hfn, by simp, ?_, by simp⟩
        intro e he
        rcases List.mem_cons.mp he with rfl | he2
        · exact le_refl _
        · exact hmin e he2
      · refine ⟨g, x :: pre, post, hfn, by simp [hsplit], ?_, ?_⟩
        · intro e he
          rcases List.mem_cons.mp he with rfl | he2
          · exact hg.le
          · rw [hsplit] at he2
            rcases List.mem_append.mp he2 with h3 | h3
            · exact (hpre e h3).le
            · rcases List.mem_cons.mp h3 with rfl | h4
              · exact le_refl _
              · exact hpost e h4
        · intro e he
          rcases List.mem_cons.mp he with rfl | he2
          · exact hg
          · exact hpre e he2

theorem findNearest_exact {buf : List SensorFrame} {t : ℚ} {pf : SensorFrame}
    (hmem : pf ∈ buf) (hts : pf.timestamp = t) :
    ∃ g, findNearest buf t = some (g, 0) ∧ g.timestamp = t := by
  have hne : buf ≠ [] := List.ne_nil_of_mem hmem
  obtain ⟨f, pre, post, hfn, _, hmin, _⟩ := findNearest_spec_helper buf t hne
  have h0 : |f.timestamp - t| ≤ 0 := by
    have := hmin pf hmem
    rw [hts] at this
    simpa using this
  have hft : f.timestamp = t := by
    have h1 : |f.timestamp - t| = 0 := le_antisymm h0 (abs_nonneg _)
    rwa [abs_eq_zero, sub_eq_zero] at h1
  refine ⟨f, ?_, hft⟩
  rw [hfn, hft, sub_self]

end FrameBuffer

/-- C5 (confirmed): for every nonempty FrameBuffer and target timestamp t,
find_nearest returns a buffered entry minimizing the absolute timestamp
distance to t over all buffered entries, paired with the signed delta
t - entry.timestamp, and the first entry in scan order wins exact ties
(every strictly earlier entry has a strictly larger distance); on an empty
buffer it returns none. -/
theorem find_nearest_minimizes :
    ∀ (buf : List SensorFrame) (t : ℚ),
    (buf = [] → FrameBuffer.findNearest buf t = none) ∧
    (buf ≠ [] →
      ∃ f pre post,
        FrameBuffer.findNearest buf t = some (f, t - f.timestamp) ∧
        buf = pre ++ f :: post ∧
        (∀ e ∈ buf, |f.timestamp - t| ≤ |e.timestamp - t|) ∧
        (∀ e ∈ pre, |f.timestamp - t| < |e.timestamp - t|)) := by
  intro buf t
  refine ⟨fun h => by subst h; rfl,
    fun h => FrameBuffer.findNearest_spec_helper buf t h⟩

/-- C5, witness: the theorem applied to a two-frame buffer with timestamps
1 and 2 and target 3/2, an exact tie resolved in favor of the first frame
in scan order. -/
theorem find_nearest_minimizes_witness :
    ∃ f pre post,
      FrameBuffer.findNearest [wf 1 0, wf 2 1] (3/2) =
        some (f, 3/2 - f.timestamp) ∧
      [wf 1 0, wf 2 1] = pre ++ f :: post ∧
      (∀ e ∈ [wf 1 0, wf 2 1],
        |f.timestamp - (3/2)| ≤ |e.timestamp - (3/2)|) ∧
      (∀ e ∈ pre, |f.timestamp - (3/2)| < |e.timestamp - (3/2)|) :=
  (find_nearest_minimizes [wf 1 0, wf 2 1] (3/2)).2 (by simp)

/- ------------------------------------------------------------------ -/
/- Dict helper lemmas (shared by the aligner claims)                  -/
/- ------------------------------------------------------------------ -/

theorem dictGet_dictSet_self {κ α : Type} [DecidableEq κ]
    (m : List (κ × α)) (k : κ) (v : α) :
    dictGet (dictSet m k v) k = some v := by
  induction m with
  | nil => simp [dictGet, dictSet]
  | cons p rest ih =>
      obtain ⟨k2, v2⟩ := p
      by_cases h : k2 = k
      · simp [dictSet, dictGet, h]
      · simp [dictSet, dictGet, h, ih]

theorem dictGet_dictSet_ne {κ α : Type} [DecidableEq κ]
    (m : List (κ × α)) (k q : κ) (v : α) (h : k ≠ q) :
    dictGet (dictSet m k v) q = dictGet m q := by
  induction m with
  | nil => simp [dictGet, dictSet, h]
  | cons p rest ih =>
      obtain ⟨k2, v2⟩ := p
      by_cases h2 : k2 = k
      · subst h2
        simp [dictSet, dictGet, h]
      · simp [dictSet, dictGet, h2, ih]

theorem dictSet_keys_congr {κ α β : Type} [DecidableEq κ] :
    ∀ (m1 : List (κ × α)) (m2 : List (κ × β)) (k : κ) (v : α) (w : β),
    m1.map Prod.fst = m2.map Prod.fst →
    (dictSet m1 k v).map Prod.fst = (dictSet m2 k w).map Prod.fst := by
  intro m1
  induction m1 with
  | nil =>
      intro m2 k v w h
      cases m2 with
      | nil => simp [dictSet]
      | cons q r2 => simp at h
  | cons p r1 ih =>
      intro m2 k v w h
      cases m2 with
      | nil => simp at h
      | cons q r2 =>
          simp only [List.map_cons, List.cons.injEq] at h
          obtain ⟨hk, hr⟩ := h
          obtain ⟨k1, v1⟩ := p
          obtain ⟨k2, v2⟩ := q
          simp only at hk
          subst hk
          by_cases h2 : k1 = k
          · simp [dictSet, h2, hr]
          · simp [dictSet, h2, ih r2 k v w hr]

theorem dictSet_mem {κ α : Type} [DecidableEq κ]
    {m : List (κ × α)} {k : κ} {v : α} {p : κ × α}
    (h : p ∈ dictSet m k v) : p = (k, v) ∨ p ∈ m := by
  induction m with
  | nil => simpa [dictSet] using h
  | cons q rest ih =>
      obtain ⟨k2, v2⟩ := q
      by_cases h2 : k2 = k
      · subst h2
        rw [dictSet, if_pos rfl] at h
        rcases List.mem_cons.mp h with rfl | h3
        · exact Or.inl rfl
        · exact Or.inr (List.mem_cons_of_mem _ h3)
      · rw [dictSet, if_neg h2] at h
        rcases List.mem_cons.mp h with rfl | h3
        · exact Or.inr (List.mem_cons_self _ _)
        · rcases ih h3 with h4 | h4
          · exact Or.inl h4
          · exact Or.inr (List.mem_cons_of_mem _ h4)

theorem dictGet_some_mem_keys {κ α : Type} [DecidableEq κ]
    {m : List (κ × α)} {k : κ} {v : α}
    (h : dictGet m k = some v) : k ∈ m.map Prod.fst := by
  induction m with
  | nil => simp [dictGet] at h
  | cons p rest ih =>
      obtain ⟨k2, v2⟩ := p
      by_cases h2 : k2 = k
      · subst h2
        simp
      · rw [dictGet, if_neg h2] at h
        simpa using Or.inr (ih h)

/- ------------------------------------------------------------------ -/
/- Claims C7 and C8: FrameAligner                                     -/
/- ------------------------------------------------------------------ -/

namespace FrameAligner

theorem alignStep_fold_inv (buffers : List (String × List SensorFrame))
    (tol target : ℚ) :
    ∀ (sensors : List String)
      (fr : List (String × SensorFrame)) (er : List (String × ℚ)),
    fr.map Prod.fst = er.map Prod.fst →
    (∀ p ∈ er, |p.2| ≤ tol) →
    ((sensors.foldl (alignStep buffers tol target) (fr, er)).1.map Prod.fst =
      (sensors.foldl (alignStep buffers tol target) (fr, er)).2.map Prod.fst) ∧
    ∀ p ∈ (sensors.foldl (alignStep buffers tol target) (fr, er)).2,
      |p.2| ≤ tol := by
  intro sensors
  induction sensors with
  | nil => exact fun fr er h1 h2 => ⟨h1, h2⟩
  | cons sid rest ih =>
      intro fr er h1 h2
      rw [List.foldl_cons]
      rcases hb : dictGet buffers sid with _ | buf
      · rw [show alignStep buffers tol target (fr, er) sid = (fr, er) by
          simp [alignStep, hb]]
        exact ih fr er h1 h2
      · rcases hf : FrameBuffer.findNearest buf target with _ | fd
        · rw [show alignStep buffers tol target (fr, er) sid = (fr, er) by
            simp [alignStep, hb, hf]]
          exact ih fr er h1 h2
        · obtain ⟨f, delta⟩ := fd
          by_cases htol : |delta| ≤ tol
          · rw [show alignStep buffers tol target (fr, er) sid =
                (dictSet fr sid f, dictSet er sid delta) by
              simp [alignStep, hb, hf, htol]]
            refine ih _ _ (dictSet_keys_congr fr er sid f delta h1) ?_
            intro p hp
            rcases dictSet_mem hp with rfl | hp2
            · exact htol
            · exact h2 p hp2
          · rw [show alignStep buffers tol target (fr, er) sid = (fr, er) by
              simp [alignStep, hb, hf, htol]]
            exact ih fr er h1 h2

theorem align_fold_preserve (buffers : List (String × List SensorFrame))
    (tol target : ℚ) :
    ∀ (sids : List String)
      (acc : List (String × SensorFrame) × List (String × ℚ)) (k : String),
    k ∉ sids →
    dictGet (sids.foldl (alignStep buffers tol target) acc).1 k =
      dictGet acc.1 k ∧
    dictGet (sids.foldl (alignStep buffers tol target) acc).2 k =
      dictGet acc.2 k := by
  intro sids
  induction sids with
  | nil => exact fun acc k _ => ⟨rfl, rfl⟩
  | cons sid rest ih =>
      intro acc k hk
      have hne : sid ≠ k := fun h => hk (h ▸ List.mem_cons_self _ _)
      have hrest : k ∉ rest := fun h => hk (List.mem_cons_of_mem _ h)
      rw [List.foldl_cons]
      obtain ⟨ih1, ih2⟩ := ih (alignStep buffers tol target acc sid) k hrest
      refine ⟨ih1.trans ?_, ih2.trans ?_⟩ <;>
      · rcases hb : dictGet buffers sid with _ | buf
        · simp [alignStep, hb]
        · rcases hf : FrameBuffer.findNearest buf target with _ | fd
          · simp [alignStep, hb, hf]
          · obtain ⟨f, delta⟩ := fd
            by_cases htol : |delta| ≤ tol
            · simp [alignStep, hb, hf, htol, dictGet_dictSet_ne _ _ _ _ hne]
            · simp [alignStep, hb, hf, htol]

end FrameAligner

/-- C7 (confirmed): align_to_timestamp never includes a sensor whose best
match exceeds the configured tolerance: every recorded alignment error
satisfies abs(error) <= tolerance, and the frame map and the error map
have exactly the same keys in the same order. -/
theorem align_within_tolerance :
    ∀ (st : FrameAligner) (wall t : ℚ) (ids : Option (List String)),
    ((FrameAligner.alignToTimestamp st wall t ids).1.frames.map Prod.fst =
      (FrameAligner.alignToTimestamp st wall t ids).1.alignment_errors.map
        Prod.fst) ∧
    ∀ p ∈ (FrameAligner.alignToTimestamp st wall t ids).1.alignment_errors,
      |p.2| ≤ st.tolerance := by
  intro st wall t ids
  exact FrameAligner.alignStep_fold_inv st.buffers st.tolerance t _ [] []
    rfl (by simp)

/-- C7, witness: the theorem applied to an aligner holding one buffer for
sensor cam with a frame at timestamp 10, tolerance 1/20, aligning to
timestamp 1003/100. -/
theorem align_within_tolerance_witness :
    ((FrameAligner.alignToTimestamp alignerOneCam 0 (1003/100) none).1.frames.map
        Prod.fst =
      (FrameAligner.alignToTimestamp alignerOneCam 0 (1003/100)
          none).1.alignment_errors.map Prod.fst) ∧
    ∀ p ∈ (FrameAligner.alignToTimestamp alignerOneCam 0 (1003/100)
        none).1.alignment_errors,
      |p.2| ≤ alignerOneCam.tolerance :=
  align_within_tolerance alignerOneCam 0 (1003/100) none

/-- C8 (code bug): whenever the primary sensor has a buffer and that buffer
is nonempty, align_to_primary holds the non-reentrant aligner lock and
calls align_to_timestamp, whose second acquisition of the same lock blocks
forever — the call never returns (modelled as none), contradicting the
claim and the method docstring.  The lock-erased body of align_to_timestamp
at the latest primary timestamp does include the primary sensor with
alignment error exactly 0 (given a nonnegative tolerance and the dict
key-uniqueness invariant), confirming the claim matches the intended
behavior. -/
theorem align_to_primary_deadlock :
    ∀ (st : FrameAligner) (wall : ℚ) (buf : List SensorFrame)
      (pf : SensorFrame),
    dictGet st.buffers st.primary_sensor = some buf →
    FrameBuffer.getLatest buf = some pf →
    FrameAligner.alignToPrimary st wall = none ∧
    (0 ≤ st.tolerance → (st.buffers.map Prod.fst).Nodup →
      ∃ g,
        dictGet (FrameAligner.alignToTimestamp st wall pf.timestamp
            none).1.frames st.primary_sensor = some g ∧
        dictGet (FrameAligner.alignToTimestamp st wall pf.timestamp
            none).1.alignment_errors st.primary_sensor = some (0 : ℚ)) := by
  intro st wall buf pf hbuf hlatest
  constructor
  · simp [FrameAligner.alignToPrimary, hbuf, hlatest, lockAcquire]
  · intro htol hnodup
    have hmem : st.primary_sensor ∈ st.buffers.map Prod.fst :=
      dictGet_some_mem_keys hbuf
    obtain ⟨pre, post, hsens⟩ := List.append_of_mem hmem
    have hkpost : st.primary_sensor ∉ post := by
      rw [hsens] at hnodup
      have h2 : (st.primary_sensor :: post).Nodup :=
        List.Nodup.sublist (List.sublist_append_right pre _) hnodup
      exact (List.nodup_cons.mp h2).1
    have hpf : pf ∈ buf := getLast_mem_of_eq hlatest
    obtain ⟨g, hg, hgt⟩ := FrameBuffer.findNearest_exact hpf rfl
    have hframes : (FrameAligner.alignToTimestamp st wall pf.timestamp
        none).1.frames =
        ((st.buffers.map Prod.fst).foldl
          (FrameAligner.alignStep st.buffers st.tolerance pf.timestamp)
          ([], [])).1 := rfl
    have herrors : (FrameAligner.alignToTimestamp st wall pf.timestamp
        none).1.alignment_errors =
        ((st.buffers.map Prod.fst).foldl
          (FrameAligner.alignStep st.buffers st.tolerance pf.timestamp)
          ([], [])).2 := rfl
    have hstep : FrameAligner.alignStep st.buffers st.tolerance pf.timestamp
        (pre.foldl
          (FrameAligner.alignStep st.buffers st.tolerance pf.timestamp)
          ([], [])) st.primary_sensor =
        (dictSet (pre.foldl
            (FrameAligner.alignStep st.buffers st.tolerance pf.timestamp)
            ([], [])).1 st.primary_sensor g,
         dictSet (pre.foldl
            (FrameAligner.alignStep st.buffers st.tolerance pf.timestamp)
            ([], [])).2 st.primary_sensor 0) := by
      simp [FrameAligner.alignStep, hbuf, hg, abs_zero, htol]
    obtain ⟨h1, h2⟩ := FrameAligner.align_fold_preserve st.buffers
      st.tolerance pf.timestamp post
      (FrameAligner.alignStep st.buffers st.tolerance pf.timestamp
        (pre.foldl
          (FrameAligner.alignStep st.buffers st.tolerance pf.timestamp)
          ([], [])) st.primary_sensor)
      st.primary_sensor hkpost
    refine ⟨g, ?_, ?_⟩
    · rw [hframes, hsens, List.foldl_append, List.foldl_cons, h1, hstep,
        dictGet_dictSet_self]
    · rw [herrors, hsens, List.foldl_append, List.foldl_cons, h2, hstep,
        dictGet_dictSet_self]

/-- C8, witness: the theorem applied to an aligner whose primary sensor cam
owns a one-frame buffer, with hypotheses discharged concretely. -/
theorem align_to_primary_deadlock_witness :
    FrameAligner.alignToPrimary alignerOneCam 0 = none ∧
    (0 ≤ alignerOneCam.tolerance →
      (alignerOneCam.buffers.map Prod.fst).Nodup →
      ∃ g,
        dictGet (FrameAligner.alignToTimestamp alignerOneCam 0
            (wf 10 0).timestamp none).1.frames
          alignerOneCam.primary_sensor = some g ∧
        dictGet (FrameAligner.alignToTimestamp alignerOneCam 0
            (wf 10 0).timestamp none).1.alignment_errors
          alignerOneCam.primary_sensor = some (0 : ℚ)) :=
  align_to_primary_deadlock alignerOneCam 0 [wf 10 0] (wf 10 0)
    (by simp [alignerOneCam, dictGet])
    (by simp [FrameBuffer.getLatest])

/- ------------------------------------------------------------------ -/
/- Claim C9: TimestampManager.start idempotence                       -/
/- ------------------------------------------------------------------ -/

/-- C9 (confirmed): a second start call immediately after a first one is a
no-op while running: it leaves the whole state unchanged — in particular
it does not re-anchor the monotonic or wall-clock anchors, does not clear
the stats, and does not reset elapsed_time progress. -/
theorem timestamp_start_idempotent :
    ∀ (tm : TimestampManager) (n1 w1 n2 w2 now : ℚ),
    TimestampManager.start n2 w2 (TimestampManager.start n1 w1 tm) =
      TimestampManager.start n1 w1 tm ∧
    TimestampManager.elapsedTime now
        (TimestampManager.start n2 w2 (TimestampManager.start n1 w1 tm)) =
      TimestampManager.elapsedTime now (TimestampManager.start n1 w1 tm) := by
  intro tm n1 w1 n2 w2 now
  set s1 := TimestampManager.start n1 w1 tm with hs1
  have h : s1.running = true := by
    rw [hs1]
    unfold TimestampManager.start
    by_cases hr : tm.running
    · simp [hr]
    · simp [hr]
  have h2 : TimestampManager.start n2 w2 s1 = s1 := by
    unfold TimestampManager.start
    rw [if_pos h]
  exact ⟨h2, by rw [h2]⟩

/- ------------------------------------------------------------------ -/
/- Claim C10: stream treats zero bounds as unset                      -/
/- ------------------------------------------------------------------ -/

/-- C10 (confirmed): the stream loop treats a zero-valued bound exactly
like an absent one (Python truthiness): with max_frames = 0 the frame
count break never fires, and with duration = 0 the duration break never
fires, for every elapsed time and every emitted count — the loop imposes
no limit on that bound rather than terminating immediately. -/
theorem stream_zero_bound_no_limit :
    ∀ (d : Option ℚ) (m : Option Nat) (elapsed : ℚ) (count : Nat),
    SyncedSensorFusion.streamShouldStop (some 0) m elapsed count =
      SyncedSensorFusion.streamShouldStop none m elapsed count ∧
    SyncedSensorFusion.streamShouldStop d (some 0) elapsed count =
      SyncedSensorFusion.streamShouldStop d none elapsed count := by
  intro d m elapsed count
  constructor
  · simp [SyncedSensorFusion.streamShouldStop]
  · cases d <;> simp [SyncedSensorFusion.streamShouldStop]

/- ------------------------------------------------------------------ -/
/- Claims C1, C2, C3: SyncedSensorFusion driver                       -/
/- ------------------------------------------------------------------ -/

theorem getNowait_fst {α : Type} (l : List α) : (getNowait l).1 = l.head? := by
  cases l <;> rfl

theorem getNowait_snd {α : Type} (l : List α) : (getNowait l).2 = l.tail := by
  cases l <;> rfl

/-- C1, counterexample to the claim as stated: with two scans queued (the
older at timestamp 1, the newer at timestamp 2), read places the OLDEST
queued item in the lidar field — not the newest — and the newer item is
not discarded: it remains queued.  The oakd queue behaves the same way. -/
theorem read_drain_counterexample :
    (SyncedSensorFusion.read (fun _ => none) 1 0 fusionTwoQueued).toOption.map
      (fun r => (r.1.lidar, r.1.oakd, r.2.lidarQueue, r.2.oakdQueue)) =
      some (some (wf 1 0), some (wo 3 0), [wf 2 1], [wo 4 1]) ∧
    wf 1 0 ≠ wf 2 1 := by
  exact ⟨rfl, by simp [wf]⟩

/-- C1 (amended): while connected, read removes at most one item per source
per call, in FIFO order: the dequeued item is the oldest queued one (the
queue head), which becomes the SyncedFrame field for that source; any
newer queued items are NOT discarded and stay queued for later reads; an
empty queue yields a None field.  (A drain-to-latest loop exists only in
the sibling driver in drivers/sensor_fusion.py, not here.) -/
theorem read_single_fifo_dequeue :
    ∀ (camRead : Nat → Option SensorFrame) (now wall : ℚ) (st : FusionState),
    st.connected = true →
    ∃ fr st2,
      SyncedSensorFusion.read camRead now wall st = .ok (fr, st2) ∧
      fr.lidar = st.lidarQueue.head? ∧
      st2.lidarQueue = st.lidarQueue.tail ∧
      fr.oakd = st.oakdQueue.head? ∧
      st2.oakdQueue = st.oakdQueue.tail := by
  intro camRead now wall st h
  refine ⟨⟨now - st.start_time.getD 0, wall,
      st.cameras.foldl (fun acc p =>
        match camRead p.1 with
        | some f => dictSet acc p.1 f
        | none => acc) [],
      st.lidarQueue.head?, st.oakdQueue.head?⟩,
    { st with
      lidarQueue := st.lidarQueue.tail
      oakdQueue := st.oakdQueue.tail },
    ?_, rfl, rfl, rfl, rfl⟩
  simp [SyncedSensorFusion.read, SyncedSensorFusion.getLidar,
    SyncedSensorFusion.getOakd, h, getNowait_fst, getNowait_snd]

/-- C1, witness: the amended theorem applied to a connected state with two
queued lidar scans and two queued oakd frames. -/
theorem read_single_fifo_dequeue_witness :
    ∃ fr st2,
      SyncedSensorFusion.read (fun _ => none) 1 0 fusionTwoQueued =
        .ok (fr, st2) ∧
      fr.lidar = fusionTwoQueued.lidarQueue.head? ∧
      st2.lidarQueue = fusionTwoQueued.lidarQueue.tail ∧
      fr.oakd = fusionTwoQueued.oakdQueue.head? ∧
      st2.oakdQueue = fusionTwoQueued.oakdQueue.tail :=
  read_single_fifo_dequeue (fun _ => none) 1 0 fusionTwoQueued rfl

/-- C2, counterexample to the claim as stated: with cameras 0 and 1
configured and the connect of camera 1 raising, connect propagates the
failure, but camera 0 — connected before the failure — remains connected
and registered in the camera map after the failed connect returns. -/
theorem connect_rollback_counterexample :
    (SyncedSensorFusion.connect (fun cid => decide (cid = 0)) true true 0
      fusionTwoCams).2 = some "ConnectionError" ∧
    (SyncedSensorFusion.connect (fun cid => decide (cid = 0)) true true 0
      fusionTwoCams).1.cameras = [(0, true)] := by
  exact ⟨rfl, rfl⟩

theorem connectCams_fail (camOk : Nat → Bool) :
    ∀ (ids : List Nat) (st : FusionState),
    (∃ cid ∈ ids, camOk cid = false) →
    SyncedSensorFusion.connectCams camOk ids st =
      ({ st with cameras := (ids.takeWhile camOk).foldl (fun m c => dictSet m c true) st.cameras },
       some "ConnectionError") := by
  intro ids
  induction ids with
  | nil => intro st h; simp at h
  | cons c rest ih =>
      intro st h
      by_cases hc : camOk c = true
      · have hrest : ∃ cid ∈ rest, camOk cid = false := by
          obtain ⟨cid, hmem, hfail⟩ := h
          rcases List.mem_cons.mp hmem with rfl | h2
          · rw [hc] at hfail
            cases hfail
          · exact ⟨cid, h2, hfail⟩
        rw [show SyncedSensorFusion.connectCams camOk (c :: rest) st =
            SyncedSensorFusion.connectCams camOk rest
              { st with cameras := dictSet st.cameras c true } by
          simp [SyncedSensorFusion.connectCams, hc]]
        rw [ih _ hrest]
        simp [List.takeWhile_cons, hc]
      · have hc2 : camOk c = false := by simpa using hc
        rw [show SyncedSensorFusion.connectCams camOk (c :: rest) st =
            (st, some "ConnectionError") by
          simp [SyncedSensorFusion.connectCams, hc2]]
        simp [List.takeWhile_cons, hc2]

/-- C2 (amended): if the connect of any configured camera raises during
connect, the whole connect fails (the exception propagates) and the driver
is never marked connected; but there is no rollback: every camera
configured strictly before the first failing one has been connected and
remains registered in the camera map when the failed connect returns. -/
theorem connect_no_rollback :
    ∀ (camOk : Nat → Bool) (lidarOk oakdOk : Bool) (now : ℚ)
      (st : FusionState),
    st.connected = false →
    (∃ cid ∈ st.camera_ids, camOk cid = false) →
    (SyncedSensorFusion.connect camOk lidarOk oakdOk now st).2 =
      some "ConnectionError" ∧
    (SyncedSensorFusion.connect camOk lidarOk oakdOk now st).1.connected =
      false ∧
    (SyncedSensorFusion.connect camOk lidarOk oakdOk now st).1.cameras =
      (st.camera_ids.takeWhile camOk).foldl (fun m c => dictSet m c true)
        st.cameras := by
  intro camOk lidarOk oakdOk now st hc h
  have hcams : SyncedSensorFusion.connectCams camOk st.camera_ids
      { st with start_time := some now } =
      ({ st with start_time := some now, cameras := (st.camera_ids.takeWhile camOk).foldl (fun m c => dictSet m c true) st.cameras },
       some "ConnectionError") :=
    connectCams_fail camOk st.camera_ids { st with start_time := some now } h
  have hgoal : SyncedSensorFusion.connect camOk lidarOk oakdOk now st =
      ({ st with start_time := some now, cameras := (st.camera_ids.takeWhile camOk).foldl (fun m c => dictSet m c true) st.cameras },
       some "ConnectionError") := by
    simp only [SyncedSensorFusion.connect]
    rw [hcams, if_neg (by simp [hc])]
  rw [hgoal]
  exact ⟨rfl, hc, rfl⟩

/-- C2, witness: the amended theorem applied to the two-camera
configuration where camera 1 fails to connect. -/
theorem connect_no_rollback_witness :
    (SyncedSensorFusion.connect (fun cid => decide (cid = 0)) true true 0
      fusionTwoCams).2 = some "ConnectionError" ∧
    (SyncedSensorFusion.connect (fun cid => decide (cid = 0)) true true 0
      fusionTwoCams).1.connected = false ∧
    (SyncedSensorFusion.connect (fun cid => decide (cid = 0)) true true 0
      fusionTwoCams).1.cameras =
      (fusionTwoCams.camera_ids.takeWhile (fun cid => decide (cid = 0))).foldl
        (fun m c => dictSet m c true) fusionTwoCams.cameras :=
  connect_no_rollback (fun cid => decide (cid = 0)) true true 0 fusionTwoCams
    rfl ⟨1, by simp [fusionTwoCams, emptyFusion], rfl⟩

/-- C3, counterexample to the claim as stated: after disconnect the lidar
queue still holds the frame queued during the previous session, and a
subsequent connect plus read returns exactly that stale frame. -/
theorem disconnect_clear_counterexample :
    (SyncedSensorFusion.disconnect fusionStaleQueue).lidarQueue = [wf 5 0] ∧
    (SyncedSensorFusion.disconnect fusionStaleQueue).lidarQueue ≠ [] ∧
    (SyncedSensorFusion.connect (fun _ => true) true true 7
      (SyncedSensorFusion.disconnect fusionStaleQueue)).2 = none ∧
    (SyncedSensorFusion.read (fun _ => none) 8 0
      (SyncedSensorFusion.connect (fun _ => true) true true 7
        (SyncedSensorFusion.disconnect fusionStaleQueue)).1).toOption.map
      (fun r => r.1.lidar) = some (some (wf 5 0)) := by
  exact ⟨rfl,
    by simp [SyncedSensorFusion.disconnect, fusionStaleQueue, emptyFusion],
    rfl, rfl⟩

/-- C3 (amended): disconnect stops the workers, disconnects and clears the
camera map, drops the lidar and oakd handles and clears the connected
flag, but it does NOT clear the async queues: both queue contents are
carried over unchanged, so a frame queued before disconnect can be
returned by a read in a later connected session. -/
theorem disconnect_keeps_queues :
    ∀ st : FusionState,
    (SyncedSensorFusion.disconnect st).lidarQueue = st.lidarQueue ∧
    (SyncedSensorFusion.disconnect st).oakdQueue = st.oakdQueue ∧
    (SyncedSensorFusion.disconnect st).connected = false ∧
    (SyncedSensorFusion.disconnect st).cameras = [] ∧
    (SyncedSensorFusion.disconnect st).lidar = none ∧
    (SyncedSensorFusion.disconnect st).oakd = none := by
  intro st
  exact ⟨rfl, rfl, rfl, rfl, rfl, rfl⟩

end Sensorbox
